import Mathlib

/-!
Verification of the Bible-reference linking core of `add_links.py`
(Analytical Lexicon and Concordance of the Greek New Testament, eBible.gr
reference links).

The embedding follows the source file `src/add_links.py`:

* Font sizes and page coordinates are exact fractions (`Fr`): an integer
  numerator over a positive integer denominator, compared by
  cross-multiplication.  The Python floats used by the program
  (font sizes, rectangle coordinates, the constants 0.85 and 0.3) are all
  exactly representable this way.
* A `CharRec` is one character record produced by the extraction
  collaborator: glyph, rectangle and span font size (the block/line ids
  are only used upstream for grouping and are dropped here).
* Regular expressions are embedded as explicit scanners with Python's
  leftmost, first-alternative, greedy-with-backtracking semantics.
-/

set_option maxRecDepth 8000

/-- Exact fraction: numerator over (by convention positive) denominator.
Kept unnormalized; all comparisons cross-multiply. -/
structure Fr where
  num : Int
  den : Int
deriving DecidableEq, Repr

def frAdd (a b : Fr) : Fr := ⟨a.num * b.den + b.num * a.den, a.den * b.den⟩

def frSub (a b : Fr) : Fr := ⟨a.num * b.den - b.num * a.den, a.den * b.den⟩

def frMul (a b : Fr) : Fr := ⟨a.num * b.num, a.den * b.den⟩

/-- Exact halving, used by the median of an even-length list. -/
def frHalf (a : Fr) : Fr := ⟨a.num, a.den * 2⟩

def frLt (a b : Fr) : Bool := a.num * b.den < b.num * a.den

def frLe (a b : Fr) : Bool := a.num * b.den ≤ b.num * a.den

def frMin (a b : Fr) : Fr := if frLe a b then a else b

def frMax (a b : Fr) : Fr := if frLe a b then b else a

/-- Python truthiness of a float size: the value is nonzero. -/
def frNz (a : Fr) : Bool := a.num != 0

/-- The comparison `base > 0` of the source. -/
def frPos (a : Fr) : Bool := 0 < a.num

def frI (n : Int) : Fr := ⟨n, 1⟩

/-- The constant 0.85 (`sup_ratio`). -/
def r085 : Fr := ⟨85, 100⟩

/-- The constant 0.3 (rectangle margin). -/
def c03 : Fr := ⟨3, 10⟩

/-- Ascending insertion into a sorted list, for `statistics.median`. -/
def frInsert (x : Fr) : List Fr → List Fr
  | [] => [x]
  | y :: ys => if frLe x y then x :: y :: ys else y :: frInsert x ys

def frSort (l : List Fr) : List Fr := l.foldr frInsert []

/-- `statistics.median`: sort; odd length takes the middle element, even
length averages the two middle elements.  The source guards the empty
case itself (`if sizes else 0.0`); we return 0 there. -/
def medianFr (l : List Fr) : Fr :=
  let s := frSort l
  let n := s.length
  if n = 0 then ⟨0, 1⟩
  else if n % 2 = 1 then s.getD (n / 2) ⟨0, 1⟩
  else frHalf (frAdd (s.getD (n / 2 - 1) ⟨0, 1⟩) (s.getD (n / 2) ⟨0, 1⟩))

/-- A page rectangle (x0, y0, x1, y1), as in `fitz.Rect`. -/
structure Rect where
  x0 : Fr
  y0 : Fr
  x1 : Fr
  y1 : Fr
deriving DecidableEq, Repr

/-- The `fitz` rectangle union operator `|`: componentwise min of the
top-left corner and max of the bottom-right corner. -/
def rectJoin (a b : Rect) : Rect :=
  ⟨frMin a.x0 b.x0, frMin a.y0 b.y0, frMax a.x1 b.x1, frMax a.y1 b.y1⟩

/-- `union_rect`: left fold of `|` over the list, `None` when empty. -/
def unionRect (l : List Rect) : Option Rect :=
  l.foldl (fun acc r => match acc with | none => some r | some u => some (rectJoin u r)) none

/-- One character record from `line_chars_from_rawdict`: glyph, bbox and
span font size. -/
structure CharRec where
  c : Char
  rect : Rect
  size : Fr
deriving DecidableEq, Repr

/-- Python `str.isspace` / regex `\s` on the characters this document
uses: ASCII whitespace. -/
def pyIsSpace (c : Char) : Bool :=
  c = ' ' || c = '\t' || c = '\n' || c = '\r' || c.toNat = 11 || c.toNat = 12

/-- The superscript digits of `SUPDIG_RE`:
U+00B9 U+00B2 U+00B3 U+2070 U+2074-U+2079. -/
def isSupDig (c : Char) : Bool :=
  c.toNat = 185 || c.toNat = 178 || c.toNat = 179 || c.toNat = 8304 ||
    (8308 ≤ c.toNat && c.toNat ≤ 8313)

/-- Regex `\d`: an ASCII decimal digit. -/
def asciiDigit (c : Char) : Bool := c.isDigit

/-- Python `str.isdigit`, on the repertoire of this document: it accepts
the ASCII decimal digits and also the superscript digits (which are
Unicode digit characters though not decimal ones). -/
def pyDigitB (c : Char) : Bool := c.isDigit || isSupDig c

/-- Regex word character `\w`, on the repertoire of this document:
ASCII alphanumerics, underscore, superscript digits (Python counts them as
alphanumeric) and Greek letters. -/
def pyIsWord (c : Char) : Bool :=
  c.isAlphanum || c = '_' || isSupDig c ||
    (880 ≤ c.toNat && c.toNat ≤ 1023) || (7936 ≤ c.toNat && c.toNat ≤ 8191)

/-- Does the first list occur at the head of the second? -/
def begMatch : List Char → List Char → Bool
  | [], _ => true
  | _ :: _, [] => false
  | a :: as', b :: bs => a = b && begMatch as' bs

/-- Value of a nonempty ASCII digit run, as Python `int`. -/
def digitsToNat (l : List Char) : Nat := l.foldl (fun n c => n * 10 + (c.toNat - 48)) 0

/-- The book abbreviations, longest first and otherwise in table order:
exactly the alternation `alt` built by
`sorted(map(re.escape, abbr_to_code.keys()), key=len, reverse=True)`
(Python's sort is stable).  No abbreviation is a prefix of another, so at
most one of them can match at a given position. -/
def bookAbbrevs : List String :=
  ["Mat", "Mrk", "Luk", "Jhn", "Act", "Rom", "1Co", "2Co", "Gal", "Eph",
   "Php", "Col", "1Th", "2Th", "1Ti", "2Ti", "Tit", "Phm", "Heb", "Jas",
   "1Pe", "2Pe", "1Jn", "2Jn", "3Jn", "Jud", "Rev", "Mt", "Mk", "Lk", "Jn"]

/-- The `abbr_to_code` table. -/
def abbrToCode : String → Option String
  | "Mt" => some ("mat")
  | "Mat" => some ("mat")
  | "Mk" => some ("mrk")
  | "Mrk" => some ("mrk")
  | "Lk" => some ("luk")
  | "Luk" => some ("luk")
  | "Jn" => some ("jhn")
  | "Jhn" => some ("jhn")
  | "Act" => some ("act")
  | "Rom" => some ("rom")
  | "1Co" => some ("1co")
  | "2Co" => some ("2co")
  | "Gal" => some ("gal")
  | "Eph" => some ("eph")
  | "Php" => some ("php")
  | "Col" => some ("col")
  | "1Th" => some ("1th")
  | "2Th" => some ("2th")
  | "1Ti" => some ("1ti")
  | "2Ti" => some ("2ti")
  | "Tit" => some ("tit")
  | "Phm" => some ("phm")
  | "Heb" => some ("heb")
  | "Jas" => some ("jas")
  | "1Pe" => some ("1pe")
  | "2Pe" => some ("2pe")
  | "1Jn" => some ("1jn")
  | "2Jn" => some ("2jn")
  | "3Jn" => some ("3jn")
  | "Jud" => some ("jud")
  | "Rev" => some ("rev")
  | _ => none

/-- The abbreviation (if any) matching at the head of `s`, tried in the
alternation order of the compiled pattern. -/
def findBook (s : List Char) : Option String :=
  bookAbbrevs.find? (fun a => begMatch a.data s)

/-- `SUPDIG_RE.sub("", token)`: delete every superscript digit. -/
def stripSup (l : List Char) : List Char := l.filter (fun c => !isSupDig c)

/-- `verseonly_re`: `^(?P<v1>\d+)(?:-(?P<v2>\d+))?$`. -/
def verseParse (s : List Char) : Option (Nat × Option Nat) :=
  let d1 := s.takeWhile asciiDigit
  let r := s.dropWhile asciiDigit
  if d1.isEmpty then none
  else if r.isEmpty then some (digitsToNat d1, none)
  else if r.head? = some '-' then
    let d2 := r.tail.takeWhile asciiDigit
    if d2.isEmpty then none
    else if (r.tail.dropWhile asciiDigit).isEmpty then
      some (digitsToNat d1, some (digitsToNat d2))
    else none
  else none

/-- `chapverse_re`: `^(?P<chap>\d+):(?P<v1>\d+)(?:-(?P<v2>\d+))?$`. -/
def chapParse (s : List Char) : Option (Nat × Nat × Option Nat) :=
  let d1 := s.takeWhile asciiDigit
  let r := s.dropWhile asciiDigit
  if d1.isEmpty then none
  else if r.head? = some ':' then
    match verseParse r.tail with
    | some (v1, v2) => some (digitsToNat d1, v1, v2)
    | none => none
  else none

/-- `full_re`:
`^(?P<book>{alt})\s*(?P<chap>\d+)(?::(?P<v1>\d+)(?:-(?P<v2>\d+))?)?$`. -/
def fullParse (s : List Char) : Option (String × Nat × Option Nat × Option Nat) :=
  match findBook s with
  | none => none
  | some a =>
    let r1 := (s.drop a.length).dropWhile pyIsSpace
    let d1 := r1.takeWhile asciiDigit
    let r2 := r1.dropWhile asciiDigit
    if d1.isEmpty then none
    else if r2.isEmpty then some (a, digitsToNat d1, none, none)
    else if r2.head? = some ':' then
      match verseParse r2.tail with
      | some (v1, v2) => some (a, digitsToNat d1, some v1, v2)
      | none => none
    else none

/-- Word-boundary `\b` before a word character: start of string or a
non-word character on the left. -/
def bndBefore (prev : Option Char) : Bool :=
  match prev with
  | none => true
  | some c => !pyIsWord c

/-- Word-boundary `\b` after a word character: end of string or a
non-word character on the right. -/
def bndAfter (l : List Char) : Bool :=
  match l with
  | [] => true
  | c :: _ => !pyIsWord c

/-- The `(?::\d+(?:-\d+)?)?` tail of the first `token_re` alternative:
number of characters consumed and the remainder.  The optional groups
only consume when they match completely (the regex backtracks to the
empty group otherwise). -/
def colonPart (l : List Char) : Nat × List Char :=
  match l with
  | ':' :: t =>
    let d2 := t.takeWhile asciiDigit
    if d2.isEmpty then (0, l)
    else
      let r2 := t.dropWhile asciiDigit
      match r2 with
      | '-' :: u =>
        let d3 := u.takeWhile asciiDigit
        if d3.isEmpty then (1 + d2.length, r2)
        else (1 + d2.length + 1 + d3.length, u.dropWhile asciiDigit)
      | _ => (1 + d2.length, r2)
  | _ => (0, l)

/-- First `token_re` alternative:
`\b(?:{alt})\b\s*\d+(?::\d+(?:-\d+)?)?(?:SUP+)?`.
Every abbreviation ends in a letter, so the inner `\b` requires the next
character to be non-word (in particular a digit may not follow the
abbreviation directly). -/
def bookTok (prev : Option Char) (l : List Char) : Option Nat :=
  if !bndBefore prev then none
  else
    match findBook l with
    | none => none
    | some a =>
      match l.drop a.length with
      | [] => none
      | c :: cs =>
        if pyIsWord c then none
        else
          let sp := (c :: cs).takeWhile pyIsSpace
          let r2 := (c :: cs).dropWhile pyIsSpace
          let d1 := r2.takeWhile asciiDigit
          if d1.isEmpty then none
          else
            let cv := colonPart (r2.dropWhile asciiDigit)
            let supL := (cv.2.takeWhile isSupDig).length
            some (a.length + sp.length + d1.length + cv.1 + supL)

/-- Second `token_re` alternative: `\b\d+:\d+(?:-\d+)?(?:SUP+)?`. -/
def cvTok (prev : Option Char) (l : List Char) : Option Nat :=
  if !bndBefore prev then none
  else
    let d1 := l.takeWhile asciiDigit
    if d1.isEmpty then none
    else
      match l.dropWhile asciiDigit with
      | ':' :: t =>
        let d2 := t.takeWhile asciiDigit
        if d2.isEmpty then none
        else
          let r2 := t.dropWhile asciiDigit
          match r2 with
          | '-' :: u =>
            let d3 := u.takeWhile asciiDigit
            if d3.isEmpty then
              some (d1.length + 1 + d2.length + (r2.takeWhile isSupDig).length)
            else
              some (d1.length + 1 + d2.length + 1 + d3.length +
                ((u.dropWhile asciiDigit).takeWhile isSupDig).length)
          | _ => some (d1.length + 1 + d2.length + (r2.takeWhile isSupDig).length)
      | _ => none

/-- Tail of the third alternative after the digit run: superscripts and
the trailing `\b`.  Fails when the character after the consumed span is a
word character (the backtracking inside `(?:SUP+)?` and into the digit
run can never rescue it: every shorter attempt ends right before a word
character as well). -/
def vTail (dl : Nat) (r : List Char) : Option Nat :=
  let supL := (r.takeWhile isSupDig).length
  if bndAfter (r.drop supL) then some (dl + supL) else none

/-- Third `token_re` alternative: `\b\d+(?:-\d+)?(?:SUP+)?\b`.
When the range `-\d+` matched but the trailing `\b` fails, the engine
backtracks to the empty range group and succeeds with the first digit
run alone (the following `-` is a non-word character, so its `\b`
holds). -/
def vTok (prev : Option Char) (l : List Char) : Option Nat :=
  if !bndBefore prev then none
  else
    let d1 := l.takeWhile asciiDigit
    if d1.isEmpty then none
    else
      match l.dropWhile asciiDigit with
      | '-' :: u =>
        let d3 := u.takeWhile asciiDigit
        if d3.isEmpty then vTail d1.length ('-' :: u)
        else
          let r3 := u.dropWhile asciiDigit
          let supL := (r3.takeWhile isSupDig).length
          if bndAfter (r3.drop supL) then some (d1.length + 1 + d3.length + supL)
          else some d1.length
      | r => vTail d1.length r

/-- One attempt of `token_re` at a fixed position: the three alternatives
in order, first match wins. -/
def matchTok (prev : Option Char) (l : List Char) : Option Nat :=
  match bookTok prev l with
  | some n => some n
  | none =>
    match cvTok prev l with
    | some n => some n
    | none => vTok prev l

/-- `token_re.finditer`: leftmost matches, scanning resumes right after
each match.  `prev` is the character before the scan position, for the
word-boundary tests; the fuel argument bounds the recursion (every
successful match consumes at least one character). -/
def scanAux : Nat → Option Char → List Char → Nat → List (Nat × Nat)
  | 0, _, _, _ => []
  | _ + 1, _, [], _ => []
  | fuel + 1, prev, c :: cs, pos =>
    match matchTok prev (c :: cs) with
    | some len =>
      (pos, pos + len) ::
        scanAux fuel (some ((c :: cs).getD (len - 1) c)) ((c :: cs).drop len) (pos + len)
    | none => scanAux fuel (some c) cs (pos + 1)

def tokenize (l : List Char) : List (Nat × Nat) := scanAux (l.length + 1) none l 0

/-- `make_url`: the three canonical URI shapes. -/
def makeUrl (code : String) (chap : Nat) (v1 v2 : Option Nat) : String :=
  match v1 with
  | none => ("https://ebible.gr/collate/") ++ code ++ (".") ++ toString chap
  | some a =>
    match v2 with
    | some b =>
      ("https://ebible.gr/collate/") ++ code ++ (".") ++ toString chap ++ (".") ++
        toString a ++ ("-") ++ toString b
    | none =>
      ("https://ebible.gr/collate/") ++ code ++ (".") ++ toString chap ++ (".") ++ toString a

/-- The per-character loop of `build_line_text_and_map`: brackets are
always dropped; a digit is dropped when the line's baseline is positive
and its span size is below `ratio` times the baseline; everything else is
appended to the text with its rectangle.  Returns the surviving text and
the parallel rectangle array. -/
def normLoop (base ratio : Fr) : List CharRec → List Char × List Rect
  | [] => ([], [])
  | x :: xs =>
    let rest := normLoop base ratio xs
    if x.c = '[' || x.c = ']' then rest
    else if (frPos base && frLt x.size (frMul ratio base)) && pyDigitB x.c then rest
    else (x.c :: rest.1, x.rect :: rest.2)

/-- `sizes = [x["size"] for x in chars if x["c"].strip() and x["size"]]`:
font sizes of the non-whitespace characters whose size is truthy
(nonzero). -/
def lineSizes (chars : List CharRec) : List Fr :=
  (chars.filter (fun x => !pyIsSpace x.c && frNz x.size)).map (fun x => x.size)

/-- `build_line_text_and_map`: the normalized line text, the parallel
rectangle array and the baseline font size. -/
def buildLineTextAndMap (chars : List CharRec) (ratio : Fr) : List Char × List Rect × Fr :=
  let base := medianFr (lineSizes chars)
  let tr := normLoop base ratio chars
  (tr.1, tr.2, base)

/-- `rect_for_span_chars`: union of the rectangle slice `[s, e)`,
expanded by 0.3 on all four sides; `None` when the slice is empty. -/
def rectForSpanChars (rects : List Rect) (s e : Nat) : Option Rect :=
  let slice := (rects.drop s).take (e - s)
  if slice.isEmpty then none
  else
    match unionRect slice with
    | none => none
    | some rr => some ⟨frSub rr.x0 c03, frSub rr.y0 c03, frAdd rr.x1 c03, frAdd rr.y1 c03⟩

/-- The character found by the backward scan of `inherits_context_at`:
the last non-whitespace character strictly before index `s`. -/
def prevNonSpace (l : List Char) (s : Nat) : Option Char :=
  ((l.take s).reverse.dropWhile pyIsSpace).head?

/-- `inherits_context_at`: true at the start of the line (or with only
whitespace before the token), or when the nearest preceding
non-whitespace character is a comma or semicolon. -/
def inheritsAt (l : List Char) (s : Nat) : Bool :=
  match prevNonSpace l s with
  | none => true
  | some c => c = ',' || c = ';'

/-- The resolver state: (current book code, current chapter). -/
abbrev Ctx := Option String × Option Nat

/-- Python truthiness of `current_book`: present and nonempty. -/
def truthyBook : Option String → Bool
  | none => false
  | some s => !s.isEmpty

/-- Python truthiness of `current_chap`: present and nonzero. -/
def truthyChap : Option Nat → Bool
  | none => false
  | some n => n != 0

/-- Common tail of each emitting branch: compute the token's rectangle;
with no rectangle the token yields no link (`if not rr: continue`), but
the state updates already happened. -/
def attachAt (rects : List Rect) (s e : Nat) (st : Ctx) (url : String) :
    Ctx × Option (Rect × String) :=
  match rectForSpanChars rects s e with
  | none => (st, none)
  | some r => (st, some (r, url))

/-- The noise-stripped classification text of the token spanning
`[s, e)` of the normalized line. -/
def tokClean (lineT : List Char) (s e : Nat) : List Char :=
  stripSup ((lineT.drop s).take (e - s))

/-- The VERSE_ONLY branch of the token loop: requires a truthy book and
chapter and the positional inheritance gate; never changes the state. -/
def verseBranch (lineT : List Char) (rects : List Rect) (st : Ctx) (s e : Nat) :
    Ctx × Option (Rect × String) :=
  match verseParse (tokClean lineT s e) with
  | some (v1, v2) =>
    if truthyBook st.1 && truthyChap st.2 && inheritsAt lineT s then
      attachAt rects s e st (makeUrl (st.1.getD ("")) (st.2.getD 0) (some v1) v2)
    else (st, none)
  | none => (st, none)

/-- The body of the token loop of `add_links`: classify the
noise-stripped text as FULL, CHAPTER:VERSE or VERSE_ONLY (in that order)
and produce the updated local state and the optional link. -/
def processToken (lineT : List Char) (rects : List Rect) (st : Ctx) (s e : Nat) :
    Ctx × Option (Rect × String) :=
  match fullParse (tokClean lineT s e) with
  | some (book, chap, v1, v2) =>
    match abbrToCode book with
    | none => (st, none)
    | some code =>
      if code.isEmpty then (st, none)
      else
        attachAt rects s e (some code, some chap)
          (match v1 with
           | none => makeUrl code chap none none
           | some a => makeUrl code chap (some a) v2)
  | none =>
    match chapParse (tokClean lineT s e) with
    | some (chap, v1, v2) =>
      if truthyBook st.1 then
        attachAt rects s e (st.1, some chap) (makeUrl (st.1.getD ("")) chap (some v1) v2)
      else verseBranch lineT rects st s e
    | none => verseBranch lineT rects st s e

/-- The token loop over one line: left-to-right, threading the local
state and collecting the emitted links in order. -/
def runToks (lineT : List Char) (rects : List Rect) : Ctx → List (Nat × Nat) →
    Ctx × List (Rect × String)
  | st, [] => (st, [])
  | st, sp :: tl =>
    let step := processToken lineT rects st sp.1 sp.2
    let rest := runToks lineT rects step.1 tl
    (rest.1, step.2.toList ++ rest.2)

/-- End-of-line write-back: a Context field is overwritten only when the
line's local value is set (`if current_book is not None: ...`). -/
def writeback (ctx cur : Ctx) : Ctx :=
  (if cur.1.isSome then cur.1 else ctx.1, if cur.2.isSome then cur.2 else ctx.2)

/-- One line of the traversal of `add_links`: skip empty char lists,
normalize, tokenize, run the token loop starting from the inherited
Context, then write the learned fields back. -/
def processLine (ctx : Ctx) (chars : List CharRec) : Ctx × List (Rect × String) :=
  match chars with
  | [] => (ctx, [])
  | _ :: _ =>
    let nm := buildLineTextAndMap chars r085
    let run := runToks nm.1 nm.2.1 ctx (tokenize nm.1)
    (writeback ctx run.1, run.2)

/-- The whole-document fold of `add_links` over the lines (pages
concatenated in document order), starting from a given Context. -/
def addLinksFrom : Ctx → List (List CharRec) → Ctx × List (Rect × String)
  | ctx, [] => (ctx, [])
  | ctx, line :: more =>
    let st := processLine ctx line
    let rest := addLinksFrom st.1 more
    (rest.1, st.2 ++ rest.2)

/-- `add_links`: the emitted (rectangle, URI) pairs of the traversal, in
emission order, starting from the empty Context. -/
def addLinks (docLines : List (List CharRec)) : List (Rect × String) :=
  (addLinksFrom (none, none) docLines).2

/-- The aggregate count `total_added` reported by `add_links`. -/
def totalAdded (docLines : List (List CharRec)) : Nat := (addLinks docLines).length

/-- A demo line at uniform font size 10 with unit-height rectangles, one
per character. -/
def mkLine (s : String) : List CharRec :=
  s.data.enum.map (fun p =>
    ⟨p.2, ⟨frI (Int.ofNat p.1), frI 0, frI (Int.ofNat p.1 + 1), frI 1⟩, frI 10⟩)

def unitRect : Rect := ⟨frI 0, frI 0, frI 1, frI 1⟩

/-- The keep-condition of the normalizer, as a predicate: not a square
bracket, and not a (Python-sense) digit rendered strictly below `ratio`
times a positive baseline. -/
def keepPred (base ratio : Fr) (x : CharRec) : Bool :=
  !(x.c = '[' || x.c = ']') && !(pyDigitB x.c && frPos base && frLt x.size (frMul ratio base))

/-- The normalizer stated as a filter (the amended claim C4): baseline is
the median size of the non-whitespace, nonzero-size characters; a
character survives exactly when `keepPred` holds; text and rectangle
array are the componentwise images of the surviving characters. -/
def specNormalize (chars : List CharRec) (ratio : Fr) : List Char × List Rect × Fr :=
  let base := medianFr (lineSizes chars)
  ((chars.filter (keepPred base ratio)).map (fun x => x.c),
   (chars.filter (keepPred base ratio)).map (fun x => x.rect), base)

/-- Baseline as claim C4 words it: the median over ALL non-whitespace
characters of the line (no nonzero-size filter). -/
def claimSizes (chars : List CharRec) : List Fr :=
  (chars.filter (fun x => !pyIsSpace x.c)).map (fun x => x.size)

/-- Drop-condition as claim C4 words it: only DECIMAL digits are subject
to the small-font test. -/
def claimKeep (base ratio : Fr) (x : CharRec) : Bool :=
  !(x.c = '[' || x.c = ']') && !(asciiDigit x.c && frPos base && frLt x.size (frMul ratio base))

/-- The Line Normalizer exactly as claim C4 states it, for comparison
with the implementation. -/
def claimNormalize (chars : List CharRec) (ratio : Fr) : List Char × List Rect × Fr :=
  let base := medianFr (claimSizes chars)
  ((chars.filter (claimKeep base ratio)).map (fun x => x.c),
   (chars.filter (claimKeep base ratio)).map (fun x => x.rect), base)

/-- The positional inheritance gate as the (amended) claim C2 words it:
every character before the token is whitespace, or the nearest preceding
non-whitespace character is a comma or semicolon. -/
def gateSpec (l : List Char) (s : Nat) : Prop :=
  (∀ c ∈ l.take s, pyIsSpace c = true) ∨
    (∃ c, prevNonSpace l s = some c ∧ (c = ',' ∨ c = ';'))

/-- Componentwise bounding box of a nonempty rectangle list (claim C5's
formulation): min over the x0/y0, max over the x1/y1. -/
def bboxSpec (r : Rect) (l : List Rect) : Rect :=
  ⟨l.foldl (fun a x => frMin a x.x0) r.x0,
   l.foldl (fun a x => frMin a x.y0) r.y0,
   l.foldl (fun a x => frMax a x.x1) r.x1,
   l.foldl (fun a x => frMax a x.y1) r.y1⟩

/-- Demo inputs used by the concrete witnesses below. -/
def c1Line : List Char := ("Mt 7:3").data

def c1Rects : List Rect := List.replicate 6 unitRect

def c2Line : List Char := ("  11").data

def c2Rects : List Rect := List.replicate 4 unitRect

def c2WLine : List Char := ("11,").data

def c2WRects : List Rect := List.replicate 3 unitRect

def c3Doc : List (List CharRec) := [mkLine ("Mt 1:8,"), mkLine ("11,")]

def c4Ex : List CharRec :=
  [⟨'a', unitRect, ⟨0, 1⟩⟩, ⟨'5', unitRect, ⟨4, 1⟩⟩, ⟨'b', unitRect, ⟨10, 1⟩⟩]

def c5R0 : Rect := ⟨⟨0, 1⟩, ⟨0, 1⟩, ⟨1, 1⟩, ⟨1, 1⟩⟩

def c5R1 : Rect := ⟨⟨2, 1⟩, ⟨1, 1⟩, ⟨3, 1⟩, ⟨2, 1⟩⟩

def c5Rects : List Rect := [c5R0, c5R1]

def c9Ex : List CharRec := mkLine ("[05]")

def c10Line : List Char := ("Mt 0").data

def c10Rects : List Rect := List.replicate 4 unitRect

lemma unionAux (l : List Rect) (u : Rect) :
    l.foldl (fun acc r => match acc with | none => some r | some v => some (rectJoin v r))
      (some u) = some (l.foldl rectJoin u) := by
  induction l generalizing u with
  | nil => rfl
  | cons b bs ih => simpa using ih (rectJoin u b)

lemma unionRect_cons (a : Rect) (l : List Rect) :
    unionRect (a :: l) = some (l.foldl rectJoin a) := by
  simpa [unionRect] using unionAux l a

lemma foldl_rectJoin_bbox (l : List Rect) (r : Rect) : l.foldl rectJoin r = bboxSpec r l := by
  induction l generalizing r with
  | nil => rfl
  | cons b bs ih =>
    simp only [List.foldl_cons]
    rw [ih]
    rfl

lemma rectSpan_isSome (rects : List Rect) (s e : Nat) (h1 : s < e) (h2 : e ≤ rects.length) :
    rectForSpanChars rects s e =
      some (match (rects.drop s).take (e - s) with
            | [] => unitRect
            | r0 :: rs =>
              ⟨frSub (bboxSpec r0 rs).x0 c03, frSub (bboxSpec r0 rs).y0 c03,
               frAdd (bboxSpec r0 rs).x1 c03, frAdd (bboxSpec r0 rs).y1 c03⟩) := by
  have hlen : ((rects.drop s).take (e - s)).length = min (e - s) (rects.length - s) := by
    simp [List.length_take, List.length_drop]
  have hpos : 0 < ((rects.drop s).take (e - s)).length := by
    rw [hlen]
    have he : 0 < e - s := Nat.sub_pos_of_lt h1
    have hr : e - s ≤ rects.length - s := Nat.sub_le_sub_right h2 s
    exact lt_min he (lt_of_lt_of_le he hr)
  cases hs : (rects.drop s).take (e - s) with
  | nil => rw [hs] at hpos; simp at hpos
  | cons r0 rs =>
    unfold rectForSpanChars
    rw [hs]
    simp [unionRect_cons, foldl_rectJoin_bbox]

lemma inherits_iff (l : List Char) (s : Nat) : inheritsAt l s = true ↔ gateSpec l s := by
  unfold inheritsAt gateSpec
  cases h : prevNonSpace l s with
  | none =>
    simp only
    constructor
    · intro _
      left
      intro c hc
      have hnil : (l.take s).reverse.dropWhile pyIsSpace = [] := by
        have := h
        unfold prevNonSpace at this
        exact List.head?_eq_none_iff.mp this
      have hall := List.dropWhile_eq_nil_iff.mp hnil
      exact hall c (List.mem_reverse.mpr hc)
    · intro _; trivial
  | some c =>
    simp only
    constructor
    · intro hc
      right
      exact ⟨c, rfl, by simpa using hc⟩
    · rintro (hall | ⟨c', hc', hor⟩)
      · exfalso
        have hnil : (l.take s).reverse.dropWhile pyIsSpace = [] := by
          apply List.dropWhile_eq_nil_iff.mpr
          intro a ha
          exact hall a (List.mem_reverse.mp ha)
        unfold prevNonSpace at h
        rw [hnil] at h
        simp at h
      · have : c' = c := (Option.some.inj hc').symm
        subst this
        rcases hor with h1 | h1 <;> simp [h1]

lemma normLoop_filter (base ratio : Fr) (chars : List CharRec) :
    normLoop base ratio chars =
      ((chars.filter (keepPred base ratio)).map (fun x => x.c),
       (chars.filter (keepPred base ratio)).map (fun x => x.rect)) := by
  induction chars with
  | nil => rfl
  | cons x xs ih =>
    cases hb : (x.c = '[' || x.c = ']') <;>
      cases hd : pyDigitB x.c <;>
        cases hp : frPos base <;>
          cases hl : frLt x.size (frMul ratio base) <;>
            simp [normLoop, keepPred, List.filter, hb, hd, hp, hl, ih]

lemma attachAt_fst (rects : List Rect) (s e : Nat) (st : Ctx) (u : String) :
    (attachAt rects s e st u).1 = st := by
  unfold attachAt
  cases rectForSpanChars rects s e <;> rfl

lemma verseBranch_fst (lineT : List Char) (rects : List Rect) (st : Ctx) (s e : Nat) :
    (verseBranch lineT rects st s e).1 = st := by
  unfold verseBranch
  cases hp : verseParse (tokClean lineT s e) with
  | none => rfl
  | some p =>
    obtain ⟨v1, v2⟩ := p
    dsimp only
    split
    · exact attachAt_fst ..
    · rfl

lemma processToken_mono (lineT : List Char) (rects : List Rect) (st : Ctx) (s e : Nat) :
    (st.1.isSome = true → ((processToken lineT rects st s e).1).1.isSome = true) ∧
    (st.2.isSome = true → ((processToken lineT rects st s e).1).2.isSome = true) := by
  unfold processToken
  cases hf : fullParse (tokClean lineT s e) with
  | some q =>
    obtain ⟨book, chap, v1, v2⟩ := q
    dsimp only
    cases ha : abbrToCode book with
    | none => exact ⟨fun h => h, fun h => h⟩
    | some code =>
      cases hce : code.isEmpty with
      | true => simp [hce]
      | false => simp [hce, attachAt_fst]
  | none =>
    dsimp only
    cases hc : chapParse (tokClean lineT s e) with
    | some q =>
      obtain ⟨chap, v1, v2⟩ := q
      dsimp only
      cases ht : truthyBook st.1 with
      | true => simp [ht, attachAt_fst]
      | false => simp [ht, verseBranch_fst]
    | none => simp [verseBranch_fst]

lemma runToks_mono (lineT : List Char) (rects : List Rect) (toks : List (Nat × Nat)) :
    ∀ st : Ctx,
      (st.1.isSome = true → ((runToks lineT rects st toks).1).1.isSome = true) ∧
      (st.2.isSome = true → ((runToks lineT rects st toks).1).2.isSome = true) := by
  induction toks with
  | nil => exact fun st => ⟨fun h => h, fun h => h⟩
  | cons sp tl ih =>
    intro st
    simp only [runToks]
    constructor
    · intro h
      exact (ih _).1 ((processToken_mono lineT rects st sp.1 sp.2).1 h)
    · intro h
      exact (ih _).2 ((processToken_mono lineT rects st sp.1 sp.2).2 h)

lemma processLine_mono (ctx : Ctx) (chars : List CharRec) :
    (ctx.1.isSome = true → ((processLine ctx chars).1).1.isSome = true) ∧
    (ctx.2.isSome = true → ((processLine ctx chars).1).2.isSome = true) := by
  cases chars with
  | nil => exact ⟨fun h => h, fun h => h⟩
  | cons x xs =>
    simp only [processLine]
    constructor
    · intro h
      have hc := (runToks_mono (buildLineTextAndMap (x :: xs) r085).1
        (buildLineTextAndMap (x :: xs) r085).2.1
        (tokenize (buildLineTextAndMap (x :: xs) r085).1) ctx).1 h
      simp [writeback, hc]
    · intro h
      have hc := (runToks_mono (buildLineTextAndMap (x :: xs) r085).1
        (buildLineTextAndMap (x :: xs) r085).2.1
        (tokenize (buildLineTextAndMap (x :: xs) r085).1) ctx).2 h
      simp [writeback, hc]

lemma addLinksFrom_mono (lines : List (List CharRec)) :
    ∀ ctx : Ctx,
      (ctx.1.isSome = true → ((addLinksFrom ctx lines).1).1.isSome = true) ∧
      (ctx.2.isSome = true → ((addLinksFrom ctx lines).1).2.isSome = true) := by
  induction lines with
  | nil => exact fun ctx => ⟨fun h => h, fun h => h⟩
  | cons line more ih =>
    intro ctx
    simp only [addLinksFrom]
    constructor
    · intro h
      exact (ih _).1 ((processLine_mono ctx line).1 h)
    · intro h
      exact (ih _).2 ((processLine_mono ctx line).2 h)

lemma begMatch_mem (a b : List Char) (h : begMatch a b = true) : ∀ c ∈ a, c ∈ b := by
  induction a generalizing b with
  | nil => intro c hc; simp at hc
  | cons x xs ih =>
    intro c hc
    cases b with
    | nil => simp [begMatch] at h
    | cons y ys =>
      have h' := h
      simp only [begMatch, Bool.and_eq_true] at h'
      obtain ⟨hxy, hrest⟩ := h'
      have hxy' : x = y := by simpa using hxy
      rcases List.mem_cons.mp hc with rfl | hmem
      · rw [hxy']; exact List.mem_cons_self ..
      · exact List.mem_cons_of_mem _ (ih ys hrest c hmem)

lemma verseChars (s : List Char) (p : Nat × Option Nat) (h : verseParse s = some p) :
    ∀ c ∈ s, asciiDigit c = true ∨ c = '-' := by
  unfold verseParse at h
  dsimp only at h
  intro c hc
  have hsplit : s.takeWhile asciiDigit ++ s.dropWhile asciiDigit = s :=
    List.takeWhile_append_dropWhile asciiDigit s
  rcases List.mem_append.mp (by rw [hsplit]; exact hc) with h1 | h2
  · exact Or.inl (List.mem_takeWhile_imp h1)
  · split_ifs at h with hd he hh hd2 hre <;> try simp at h
    · exfalso
      rw [List.isEmpty_iff.mp he] at h2
      simp at h2
    · have hcons : s.dropWhile asciiDigit = '-' :: (s.dropWhile asciiDigit).tail := by
        cases hrc : s.dropWhile asciiDigit with
        | nil => rw [hrc] at hh; simp at hh
        | cons y ys =>
          rw [hrc] at hh
          simp at hh
          rw [hh]
          rfl
      rcases List.mem_cons.mp (by rw [← hcons]; exact h2) with rfl | hmem
      · exact Or.inr rfl
      · left
        have htl := List.takeWhile_append_dropWhile asciiDigit (s.dropWhile asciiDigit).tail
        rcases List.mem_append.mp (by rw [htl]; exact hmem) with h3 | h4
        · exact List.mem_takeWhile_imp h3
        · exfalso
          rw [List.isEmpty_iff.mp hre] at h4
          simp at h4

lemma verse_not_chap (s : List Char) (p : Nat × Option Nat) (h : verseParse s = some p) :
    chapParse s = none := by
  unfold verseParse at h
  dsimp only at h
  unfold chapParse
  dsimp only
  split_ifs at h with hd he hh hd2 hre <;> try simp at h
  · simp [hd, List.isEmpty_iff.mp he]
  · simp [hd, hh]

lemma findBook_none (s : List Char) (h : ∀ c ∈ s, asciiDigit c = true ∨ c = '-') :
    findBook s = none := by
  have key : ∀ a ∈ bookAbbrevs, a.data.any (fun c => !asciiDigit c && !(c = '-')) = true := by
    decide
  unfold findBook
  rw [List.find?_eq_none]
  intro a ha hp
  obtain ⟨c, hca, hcd⟩ := List.any_eq_true.mp (key a ha)
  have hcs : c ∈ s := begMatch_mem a.data s hp c hca
  rcases h c hcs with h1 | h1
  · rw [h1] at hcd; simp at hcd
  · rw [h1] at hcd; simp at hcd

lemma verse_not_full (s : List Char) (p : Nat × Option Nat) (h : verseParse s = some p) :
    fullParse s = none := by
  unfold fullParse
  rw [findBook_none s (verseChars s p h)]

lemma rectSpan_none (rects : List Rect) (s e : Nat)
    (h : (rects.drop s).take (e - s) = []) : rectForSpanChars rects s e = none := by
  simp [rectForSpanChars, h]

lemma attachAt_none (rects : List Rect) (s e : Nat) (st : Ctx) (u : String)
    (h : rectForSpanChars rects s e = none) : (attachAt rects s e st u).2 = none := by
  unfold attachAt
  rw [h]

lemma verseBranch_snd_none (lineT : List Char) (rects : List Rect) (st : Ctx) (s e : Nat)
    (h : rectForSpanChars rects s e = none) : (verseBranch lineT rects st s e).2 = none := by
  unfold verseBranch
  cases hp : verseParse (tokClean lineT s e) with
  | none => rfl
  | some p =>
    obtain ⟨v1, v2⟩ := p
    dsimp only
    split
    · exact attachAt_none _ _ _ _ _ h
    · rfl

lemma processToken_snd_none (lineT : List Char) (rects : List Rect) (st : Ctx) (s e : Nat)
    (h : rectForSpanChars rects s e = none) : (processToken lineT rects st s e).2 = none := by
  unfold processToken
  cases hf : fullParse (tokClean lineT s e) with
  | some q =>
    obtain ⟨book, chap, v1, v2⟩ := q
    dsimp only
    cases ha : abbrToCode book with
    | none => rfl
    | some code =>
      cases hce : code.isEmpty with
      | true => simp [hce]
      | false => simp [hce, attachAt_none _ _ _ _ _ h]
  | none =>
    dsimp only
    cases hc : chapParse (tokClean lineT s e) with
    | some q =>
      obtain ⟨chap, v1, v2⟩ := q
      dsimp only
      cases ht : truthyBook st.1 with
      | true => simp [ht, attachAt_none _ _ _ _ _ h]
      | false => simp [ht, verseBranch_snd_none _ _ _ _ _ h]
    | none => simp [verseBranch_snd_none _ _ _ _ _ h]

lemma processToken_verse (lineT : List Char) (rects : List Rect) (st : Ctx) (s e v1 : Nat)
    (v2 : Option Nat) (hv : verseParse (tokClean lineT s e) = some (v1, v2)) :
    processToken lineT rects st s e = verseBranch lineT rects st s e := by
  unfold processToken
  rw [verse_not_full _ _ hv, verse_not_chap _ _ hv]

/-- Claim C5: the emitted rectangle of a token span is the componentwise
bounding box of the rectangle slice `[start, end)` expanded by 0.3 on
each of the four sides, and an empty slice yields no rectangle and hence
no annotation for the token. -/
theorem claimC5_geometry_union :
    (∀ (rects : List Rect) (s e : Nat), (rects.drop s).take (e - s) = [] →
      rectForSpanChars rects s e = none) ∧
    (∀ (rects : List Rect) (s e : Nat) (r0 : Rect) (rs : List Rect),
      (rects.drop s).take (e - s) = r0 :: rs →
      rectForSpanChars rects s e =
        some ⟨frSub (bboxSpec r0 rs).x0 c03, frSub (bboxSpec r0 rs).y0 c03,
              frAdd (bboxSpec r0 rs).x1 c03, frAdd (bboxSpec r0 rs).y1 c03⟩) ∧
    (∀ (lineT : List Char) (rects : List Rect) (st : Ctx) (s e : Nat),
      (rects.drop s).take (e - s) = [] → (processToken lineT rects st s e).2 = none) := by
  refine ⟨fun rects s e h => rectSpan_none rects s e h, ?_, ?_⟩
  · intro rects s e r0 rs hs
    unfold rectForSpanChars
    rw [hs]
    simp [unionRect_cons, foldl_rectJoin_bbox]
  · intro lineT rects st s e h
    exact processToken_snd_none lineT rects st s e (rectSpan_none rects s e h)

/-- Witness for claim C5 at a concrete two-rectangle span. -/
theorem claimC5_geometry_union_witness :
    rectForSpanChars c5Rects 0 2 =
      some ⟨frSub (bboxSpec c5R0 [c5R1]).x0 c03, frSub (bboxSpec c5R0 [c5R1]).y0 c03,
            frAdd (bboxSpec c5R0 [c5R1]).x1 c03, frAdd (bboxSpec c5R0 [c5R1]).y1 c03⟩ :=
  claimC5_geometry_union.2.1 c5Rects 0 2 c5R0 [c5R1] (by decide)

/-- Claim C6: the Link Emitter produces exactly the three canonical URI
shapes (chapter-only when there is no first verse, single verse, verse
range), and the chapter-only token "Jn 1" emits
`https://ebible.gr/collate/jhn.1` with no verse segment. -/
theorem claimC6_url_shapes :
    (∀ (b : String) (c : Nat), makeUrl b c none none =
      ("https://ebible.gr/collate/") ++ b ++ (".") ++ toString c) ∧
    (∀ (b : String) (c v2 : Nat), makeUrl b c none (some v2) =
      ("https://ebible.gr/collate/") ++ b ++ (".") ++ toString c) ∧
    (∀ (b : String) (c v1 : Nat), makeUrl b c (some v1) none =
      ("https://ebible.gr/collate/") ++ b ++ (".") ++ toString c ++ (".") ++ toString v1) ∧
    (∀ (b : String) (c v1 v2 : Nat), makeUrl b c (some v1) (some v2) =
      ("https://ebible.gr/collate/") ++ b ++ (".") ++ toString c ++ (".") ++ toString v1 ++
        ("-") ++ toString v2) ∧
    (addLinks [mkLine ("Jn 1")]).map Prod.snd = [("https://ebible.gr/collate/jhn.1")] :=
  ⟨fun b c => rfl, fun b c v2 => rfl, fun b c v1 => rfl, fun b c v1 v2 => rfl, by decide⟩

/-- Claim C7: the traversal is a pure function of the character-stream
input; two runs on the same input give identical annotation lists in the
same order. -/
theorem claimC7_determinism :
    ∀ d1 d2 : List (List CharRec), d1 = d2 → addLinks d1 = addLinks d2 :=
  fun d1 d2 h => by rw [h]

/-- Witness for claim C7 on a concrete two-line document. -/
theorem claimC7_determinism_witness : addLinks c3Doc = addLinks c3Doc :=
  claimC7_determinism c3Doc c3Doc rfl

lemma processToken_full_some (lineT : List Char) (rects : List Rect) (st : Ctx) (s e : Nat)
    (book : String) (chap a : Nat) (v2 : Option Nat) (code : String)
    (hf : fullParse (tokClean lineT s e) = some (book, chap, some a, v2))
    (ha : abbrToCode book = some code) (hc : code.isEmpty = false) :
    processToken lineT rects st s e =
      attachAt rects s e (some code, some chap) (makeUrl code chap (some a) v2) := by
  unfold processToken
  simp only [hf]
  simp only [ha]
  simp [hc]

lemma processToken_full_none (lineT : List Char) (rects : List Rect) (st : Ctx) (s e : Nat)
    (book : String) (chap : Nat) (v2 : Option Nat) (code : String)
    (hf : fullParse (tokClean lineT s e) = some (book, chap, none, v2))
    (ha : abbrToCode book = some code) (hc : code.isEmpty = false) :
    processToken lineT rects st s e =
      attachAt rects s e (some code, some chap) (makeUrl code chap none none) := by
  unfold processToken
  simp only [hf]
  simp only [ha]
  simp [hc]

/-- Claim C1: a token whose noise-stripped text is "Mt 7:3" resolves via
the FULL shape in every traversal state: the local state becomes
(book "mat", chapter 7), the token emits
`https://ebible.gr/collate/mat.7.3`, and the end-of-line write-back
stores exactly these values into the document-wide Context. -/
theorem claimC1_full_token_resolves :
    ∀ (st : Ctx) (lineT : List Char) (rects : List Rect) (s e : Nat),
      rects.length = lineT.length → s < e → e ≤ lineT.length →
      tokClean lineT s e = ("Mt 7:3").data →
      (∃ r : Rect, processToken lineT rects st s e =
        ((some ("mat"), some 7), some (r, ("https://ebible.gr/collate/mat.7.3")))) ∧
      (∀ ctx : Ctx, writeback ctx (some ("mat"), some 7) = (some ("mat"), some 7)) := by
  intro st lineT rects s e hlen hse hel hclean
  constructor
  · have hf : fullParse (tokClean lineT s e) = some (("Mt"), 7, some 3, none) := by
      rw [hclean]; decide
    have hstep := processToken_full_some lineT rects st s e ("Mt") 7 3 none ("mat")
      hf (by decide) (by decide)
    have hu : makeUrl ("mat") 7 (some 3) none = ("https://ebible.gr/collate/mat.7.3") := by
      decide
    have hrect := rectSpan_isSome rects s e hse (hlen ▸ hel)
    rw [hstep, hu]
    unfold attachAt
    rw [hrect]
    exact ⟨_, rfl⟩
  · intro ctx
    simp [writeback]

/-- Witness for claim C1: the token "Mt 7:3" spanning a whole six
character line, from the empty state. -/
theorem claimC1_full_token_resolves_witness :
    (∃ r : Rect, processToken c1Line c1Rects (none, none) 0 6 =
      ((some ("mat"), some 7), some (r, ("https://ebible.gr/collate/mat.7.3")))) ∧
    (∀ ctx : Ctx, writeback ctx (some ("mat"), some 7) = (some ("mat"), some 7)) :=
  claimC1_full_token_resolves (none, none) c1Line c1Rects 0 6 (by decide) (by decide)
    (by decide) (by decide)

/-- Claim C8: handling a token whose noise-stripped text has the
VERSE_ONLY shape never changes the resolver state, whether or not it
produced an annotation. -/
theorem claimC8_verse_frame :
    ∀ (lineT : List Char) (rects : List Rect) (st : Ctx) (s e v1 : Nat) (v2 : Option Nat),
      verseParse (tokClean lineT s e) = some (v1, v2) →
      (processToken lineT rects st s e).1 = st := by
  intro lineT rects st s e v1 v2 hv
  rw [processToken_verse lineT rects st s e v1 v2 hv]
  exact verseBranch_fst ..

/-- Witness for claim C8: the bare token "11" at the start of a line,
with context set; the state is unchanged. -/
theorem claimC8_verse_frame_witness :
    (processToken c2WLine c2WRects (some ("mat"), some 1) 0 2).1 = (some ("mat"), some 1) :=
  claimC8_verse_frame c2WLine c2WRects (some ("mat"), some 1) 0 2 11 none (by decide)

/-- Claim C10: the FULL token "Mt 0" drives the local state to
(book "mat", chapter 0), and while the chapter is 0 every VERSE_ONLY
token is rejected by the resolver's truthiness check (chapter 0 behaves
exactly like an unset chapter), producing no annotation. -/
theorem claimC10_zero_chapter :
    (∀ (st : Ctx) (lineT : List Char) (rects : List Rect) (s e : Nat),
      tokClean lineT s e = ("Mt 0").data →
      (processToken lineT rects st s e).1 = (some ("mat"), some 0)) ∧
    (∀ (lineT : List Char) (rects : List Rect) (b : Option String) (s e v1 : Nat)
      (v2 : Option Nat),
      verseParse (tokClean lineT s e) = some (v1, v2) →
      (processToken lineT rects (b, some 0) s e).2 = none) := by
  constructor
  · intro st lineT rects s e hclean
    have hf : fullParse (tokClean lineT s e) = some (("Mt"), 0, none, none) := by
      rw [hclean]; decide
    rw [processToken_full_none lineT rects st s e ("Mt") 0 none ("mat") hf (by decide)
      (by decide)]
    exact attachAt_fst ..
  · intro lineT rects b s e v1 v2 hv
    rw [processToken_verse lineT rects (b, some 0) s e v1 v2 hv]
    unfold verseBranch
    rw [hv]
    simp [truthyChap]

/-- Witness for claim C10: "Mt 0" sets the chapter to 0, after which the
bare verse token "11" at line start with the book set yields nothing. -/
theorem claimC10_zero_chapter_witness :
    (processToken c10Line c10Rects (none, none) 0 4).1 = (some ("mat"), some 0) ∧
    (processToken c2WLine c2WRects (some ("mat"), some 0) 0 2).2 = none :=
  ⟨claimC10_zero_chapter.1 (none, none) c10Line c10Rects 0 4 (by decide),
   claimC10_zero_chapter.2 c2WLine c2WRects (some ("mat")) 0 2 11 none (by decide)⟩

/-- Claim C2 (amended): a token whose noise-stripped text has the
VERSE_ONLY shape produces an annotation exactly when the current book is
set and truthy (nonempty), the current chapter is set and truthy
(nonzero), and either every character before the token in the normalized
line is whitespace or the nearest preceding non-whitespace character is
a comma or semicolon. -/
theorem claimC2_verse_gate_amended :
    ∀ (st : Ctx) (lineT : List Char) (rects : List Rect) (s e v1 : Nat) (v2 : Option Nat),
      rects.length = lineT.length → s < e → e ≤ lineT.length →
      verseParse (tokClean lineT s e) = some (v1, v2) →
      ((∃ a, (processToken lineT rects st s e).2 = some a) ↔
        (truthyBook st.1 = true ∧ truthyChap st.2 = true ∧ gateSpec lineT s)) := by
  intro st lineT rects s e v1 v2 hlen hse hel hv
  rw [processToken_verse lineT rects st s e v1 v2 hv]
  unfold verseBranch
  rw [hv]
  dsimp only
  cases hcond : (truthyBook st.1 && truthyChap st.2 && inheritsAt lineT s) with
  | false =>
    simp only [Bool.false_eq_true, if_false]
    constructor
    · rintro ⟨a, ha⟩
      simp at ha
    · rintro ⟨hb, hc2, hg⟩
      exfalso
      rw [hb, hc2, (inherits_iff lineT s).mpr hg] at hcond
      simp at hcond
  | true =>
    simp only [if_true]
    have hsplit : truthyBook st.1 = true ∧ truthyChap st.2 = true ∧
        inheritsAt lineT s = true := by
      simpa [Bool.and_eq_true, and_assoc] using hcond
    obtain ⟨hb, hc2, hi⟩ := hsplit
    constructor
    · intro _
      exact ⟨hb, hc2, (inherits_iff lineT s).mp hi⟩
    · intro _
      have hrect := rectSpan_isSome rects s e hse (hlen ▸ hel)
      unfold attachAt
      rw [hrect]
      exact ⟨_, rfl⟩

/-- Counterexample to claim C2 as stated: in line "  11" the bare token
"11" starts at index 2 — not at the very beginning of the normalized
line — and has no preceding non-whitespace character at all (so no
preceding comma or semicolon), yet with Context (book "mat", chapter 5)
it produces the annotation `https://ebible.gr/collate/mat.5.11`. -/
theorem claimC2_counterexample :
    ((processToken c2Line c2Rects ((some ("mat")), some 5) 2 4).2).map Prod.snd =
      some ("https://ebible.gr/collate/mat.5.11") ∧
    tokenize c2Line = [(2, 4)] ∧
    tokClean c2Line 2 4 = ("11").data ∧
    (2 : Nat) ≠ 0 ∧
    (c2Line.take 2).all pyIsSpace = true ∧
    (addLinks [mkLine ("Mt 5"), mkLine ("  11")]).map Prod.snd =
      [("https://ebible.gr/collate/mat.5"), ("https://ebible.gr/collate/mat.5.11")] :=
  ⟨by decide, by decide, by decide, by decide, by decide, by decide⟩

/-- Witness for claim C2 at the token "11" of line "11," with Context
(book "mat", chapter 1). -/
theorem claimC2_verse_gate_amended_witness :
    (∃ a, (processToken c2WLine c2WRects (some ("mat"), some 1) 0 2).2 = some a) ↔
      (truthyBook (some ("mat")) = true ∧ truthyChap (some 1) = true ∧ gateSpec c2WLine 0) :=
  claimC2_verse_gate_amended (some ("mat"), some 1) c2WLine c2WRects 0 2 11 none
    (by decide) (by decide) (by decide) (by decide)

/-- Claim C3: the document-wide Context is an invariant-preserving fold:
once the book or chapter field is set it stays set for the rest of the
traversal; the end-of-line write-back copies exactly the fields the line
set and never overwrites a set field with an unset one; and across the
two lines "Mt 1:8," and "11," the bare token "11" on the second line
resolves to `https://ebible.gr/collate/mat.1.11`. -/
theorem claimC3_ctx_fold :
    (∀ (ctx : Ctx) (lines : List (List CharRec)),
      (ctx.1.isSome = true → ((addLinksFrom ctx lines).1).1.isSome = true) ∧
      (ctx.2.isSome = true → ((addLinksFrom ctx lines).1).2.isSome = true)) ∧
    (∀ ctx cur : Ctx,
      (cur.1.isSome = true → (writeback ctx cur).1 = cur.1) ∧
      (cur.1.isSome = false → (writeback ctx cur).1 = ctx.1) ∧
      (cur.2.isSome = true → (writeback ctx cur).2 = cur.2) ∧
      (cur.2.isSome = false → (writeback ctx cur).2 = ctx.2)) ∧
    (addLinks c3Doc).map Prod.snd =
      [("https://ebible.gr/collate/mat.1.8"), ("https://ebible.gr/collate/mat.1.11")] := by
  refine ⟨fun ctx lines => addLinksFrom_mono lines ctx, ?_, by decide⟩
  intro ctx cur
  exact ⟨fun h => by simp [writeback, h], fun h => by simp [writeback, h],
    fun h => by simp [writeback, h], fun h => by simp [writeback, h]⟩

/-- Witness for claim C3: a set Context survives an empty traversal, and
the write-back keeps a freshly set book. -/
theorem claimC3_ctx_fold_witness :
    ((addLinksFrom ((some ("mat"), some 2) : Ctx) []).1).1.isSome = true ∧
    (writeback (none, none) (some ("mat"), some 2)).1 = some ("mat") :=
  ⟨(claimC3_ctx_fold.1 (some ("mat"), some 2) []).1 rfl,
   (claimC3_ctx_fold.2.1 (none, none) (some ("mat"), some 2)).1 rfl⟩

/-- Claim C4 (amended): the Line Normalizer equals its filter
formulation — the baseline is the median font size over the
non-whitespace characters whose size is nonzero (Python's truthiness
test on the size), and a character is dropped exactly when it is a
square bracket, or it is a digit in Python's `isdigit` sense (decimal or
superscript) whose span size is strictly below 0.85 times a positive
baseline. -/
theorem claimC4_normalizer_amended :
    ∀ chars : List CharRec, buildLineTextAndMap chars r085 = specNormalize chars r085 := by
  intro chars
  unfold buildLineTextAndMap specNormalize
  dsimp only
  rw [normLoop_filter]

/-- Counterexample to claim C4 as stated: with characters 'a' at size 0,
'5' at size 4 and 'b' at size 10, the implementation excludes the
zero-size 'a' from the median (baseline 7, so '5' is dropped: text
"ab"), while the claim's baseline over ALL non-whitespace characters is
4, keeping '5' (text "a5b"). -/
theorem claimC4_counterexample :
    (buildLineTextAndMap c4Ex r085).1 ≠ (claimNormalize c4Ex r085).1 ∧
    (buildLineTextAndMap c4Ex r085).1 = ("ab").data ∧
    (claimNormalize c4Ex r085).1 = ("a5b").data :=
  ⟨by decide, by decide, by decide⟩

lemma bracket_not_kept (chars : List CharRec) (ratio : Fr) (ch : Char)
    (hbr : ch = '[' ∨ ch = ']') : ch ∉ (buildLineTextAndMap chars ratio).1 := by
  intro hmem
  have hb : (buildLineTextAndMap chars ratio).1 =
      (chars.filter (keepPred (medianFr (lineSizes chars)) ratio)).map (fun x => x.c) := by
    unfold buildLineTextAndMap
    dsimp only
    rw [normLoop_filter]
  rw [hb] at hmem
  obtain ⟨x, hx, hxc⟩ := List.mem_map.mp hmem
  have hk := List.of_mem_filter hx
  unfold keepPred at hk
  rw [hxc] at hk
  rcases hbr with h1 | h1 <;> rw [h1] at hk <;> simp at hk

/-- Claim C9 (amended): the brackets themselves are dropped
unconditionally — '[' and ']' never appear in the normalized text, and
the text stays index-aligned with the rectangle array — but the
baseline-size digits between them survive: "[05]" at uniform size
contributes exactly the two characters "05". -/
theorem claimC9_bracket_strip :
    (∀ (chars : List CharRec) (ratio : Fr),
      ('[' ∉ (buildLineTextAndMap chars ratio).1) ∧
      (']' ∉ (buildLineTextAndMap chars ratio).1) ∧
      (buildLineTextAndMap chars ratio).1.length =
        (buildLineTextAndMap chars ratio).2.1.length) ∧
    (buildLineTextAndMap c9Ex r085).1 = ("05").data := by
  refine ⟨?_, by decide⟩
  intro chars ratio
  refine ⟨bracket_not_kept chars ratio '[' (Or.inl rfl),
    bracket_not_kept chars ratio ']' (Or.inr rfl), ?_⟩
  unfold buildLineTextAndMap
  dsimp only
  rw [normLoop_filter]
  simp

/-- Counterexample to claim C9's example as stated: the substring "[05]"
with every character at the baseline size contributes the two characters
"05" to the normalized line, not zero characters. -/
theorem claimC9_counterexample :
    (buildLineTextAndMap c9Ex r085).1 = ("05").data ∧ ("05").data ≠ ([] : List Char) :=
  ⟨by decide, by decide⟩
